import Mathlib

/-!
# Verification of the netops device-scraping pipeline

A shallow embedding, in Lean 4, of the core of the `netops` repository:
the orchestrator (`src/netops/orchestrator.py`), the per-system scrapers
(`src/netops/systems/{ettp,cmts,dsl,gpon}.py`), the MikroTik queue parser
(`src/netops/parsers/mikrotik_queue.py`) and the offline comparison tool
(`src/netops/reports/speed_compare.py`).

Conventions of the embedding:

* Python strings are Lean `String`s; character-level scanning is done on
  `List Char`.  The embedding models the ASCII behaviour of Python's
  `str.strip`, `str.lower`, `str.upper`, `\s`, `\d` and `\w`; the Unicode
  extensions of those classes are irrelevant to the device output handled
  by this program.
* Python exceptions are modelled with `Except`: a network call that may
  raise is an `Except`-valued input, and a pure helper that may raise is
  an `Except`-valued function.
* A pandas `DataFrame` built as `pd.DataFrame(rows, columns=cols)` is
  modelled as the pair `(cols, rows)`.
* `asyncio` nondeterminism is modelled explicitly: `run_many` takes the
  completion order of its tasks as a parameter (a permutation of the
  input sites), and the concurrency bound is modelled as a transition
  system over semaphore states.
-/

namespace Netops

/-! ## Python string primitives -/

/-- Python's `\s` class (ASCII part): space, tab, newline, carriage return,
vertical tab, form feed.  Used by `str.strip()` and by `\s` in regexes. -/
def isPySpace (c : Char) : Bool :=
  c = ' ' || c = '\t' || c = '\n' || c = '\r' || c = '\x0b' || c = '\x0c'

/-- Python's `\w` class (ASCII part): letters, digits, underscore.
Used for `\b` word-boundary tests in regexes. -/
def isWordChar (c : Char) : Bool :=
  ('a' ≤ c && c ≤ 'z') || ('A' ≤ c && c ≤ 'Z') || ('0' ≤ c && c ≤ '9') || c = '_'

/-- Python's `[0-9]` / `\d` (ASCII part). -/
def isDigitChar (c : Char) : Bool :=
  '0' ≤ c && c ≤ '9'

/-- `str.strip()` on a character list. -/
def pyStripList (cs : List Char) : List Char :=
  ((cs.dropWhile isPySpace).reverse.dropWhile isPySpace).reverse

/-- `str.strip()`. -/
def pyStrip (s : String) : String :=
  ⟨pyStripList s.data⟩

/-- ASCII `str.lower()`. -/
def pyLower (s : String) : String :=
  ⟨s.data.map Char.toLower⟩

/-- ASCII `str.upper()`. -/
def pyUpper (s : String) : String :=
  ⟨s.data.map Char.toUpper⟩

/-- `a.startswith(b)` on character lists. -/
def startsWithList : List Char → List Char → Bool
  | _, [] => true
  | [], _ :: _ => false
  | c :: cs, p :: ps => c = p && startsWithList cs ps

/-- `a.startswith(b)`. -/
def pyStartsWith (s p : String) : Bool :=
  startsWithList s.data p.data

/-- Worker for `pySplitlinesList`: accumulate the current line (reversed in
`acc`) and emit it at each `\n`, `\r\n` or `\r` separator; a trailing
separator produces no final empty line, exactly as in Python. -/
def splitlinesAux (acc : List Char) : List Char → List (List Char)
  | [] => [acc.reverse]
  | '\r' :: '\n' :: r => acc.reverse :: (if r.isEmpty then [] else splitlinesAux [] r)
  | '\r' :: r => acc.reverse :: (if r.isEmpty then [] else splitlinesAux [] r)
  | '\n' :: r => acc.reverse :: (if r.isEmpty then [] else splitlinesAux [] r)
  | c :: r => splitlinesAux (c :: acc) r

/-- `str.splitlines()` restricted to the line separators `\n`, `\r\n`
and `\r` occurring in device output. -/
def pySplitlinesList (cs : List Char) : List (List Char) :=
  if cs.isEmpty then [] else splitlinesAux [] cs

/-- `str.splitlines()`. -/
def pySplitlines (s : String) : List String :=
  (pySplitlinesList s.data).map (fun l => ⟨l⟩)

/-! ## GPON: `pick_speed_and_note` (`src/netops/systems/gpon.py`) -/

/-- `sorted(set(...))`: ascending sorted list of the distinct elements. -/
def sortedSet (l : List Nat) : List Nat :=
  l.dedup.insertionSort (· ≤ ·)

/-- `pick_speed_and_note(values)` from `gpon.py`:
filter sentinels (`v > 1 and v != 512`), choose the lowest remaining value
as the speed, and annotate when several distinct profiles remain. -/
def pick_speed_and_note (values : List Nat) : Option String × String :=
  let valid := sortedSet (values.filter (fun v => decide (1 < v) && decide (v ≠ 512)))
  match valid with
  | [] => (none, "")
  | v :: vs =>
    let speedVal := (v :: vs).foldl min v   -- `min(valid)`; `valid` is sorted so this is its head
    let note :=
      if (v :: vs).length > 1 then
        if (v :: vs).contains 1000 && !(speedVal = 1000) then
          "Camera profile present"
        else
          "Multiple profiles: " ++ String.intercalate ", " ((v :: vs).map toString)
      else ""
    (some (toString speedVal ++ " Mbps"), note)

/-! ## CMTS scraper (`src/netops/systems/cmts.py`)

After discovery (`_get_list`) produced the `[mac, identity]` pairs, the
per-modem loop queries each cable modem and appends one row per modem to
`final_list`.  The per-modem transport call is modelled as an
`Except`-valued outcome attached to the modem. -/

/-- Leftmost match of `re.search(r'(\d+Mbps)', out)`: the first position
starting a digit run immediately followed by `Mbps`; the returned group
is the digits together with `Mbps`. -/
def findMbpsTokenList : List Char → Option (List Char)
  | [] => none
  | c :: cs =>
    if isDigitChar c then
      let ds := (c :: cs).takeWhile isDigitChar
      let rest := (c :: cs).dropWhile isDigitChar
      if startsWithList rest "Mbps".data then some (ds ++ "Mbps".data)
      else findMbpsTokenList cs
    else findMbpsTokenList cs

/-- `re.search(r'(\d+Mbps)', out)` returning the matched group. -/
def findMbpsToken (s : String) : Option String :=
  (findMbpsTokenList s.data).map (fun l => ⟨l⟩)

/-- One iteration of the CMTS per-modem loop (`cmts.py` lines 54–65):
on success extract the Mbps token (empty speed and `Inactive` status when
absent), on an exception append the `No Data` row. -/
def cmtsModemRow (identity mac : String) (out : Except String String) : List String :=
  match out with
  | .error _ => [identity, "No Data", "No Data", "No Data"]
  | .ok o =>
    let speed := match findMbpsToken o with
      | some t => t
      | none => ""
    let status := if speed = "" then "Inactive" else "Active"
    [identity, mac, speed, status]

/-- The `final_list.append` loop over the discovered modems. -/
def cmtsLoop (acc : List (List String)) :
    List ((String × String) × Except String String) → List (List String)
  | [] => acc
  | ((mac, identity), out) :: rest => cmtsLoop (acc ++ [cmtsModemRow identity mac out]) rest

/-- `CMTSystem.get_info` after discovery: header row followed by one row
per discovered modem (`modems` pairs each `[mac, identity]` entry with
the outcome of its `show cable modem` query). -/
def cmtsGetInfoRows (modems : List ((String × String) × Except String String)) :
    List (List String) :=
  cmtsLoop [["Identity", "Mac/Serial", "Speed", "Status"]] modems

/-! ## DSL scraper (`src/netops/systems/dsl.py`)

After the slot list is discovered, the scraper loops over each slot and
ports 1–24, issuing a statistics command and a description command per
port; both are modelled as one `Except`-valued outcome (the row degrades
to the `Error` row if either raises). -/

/-- Python `s.split('.')` on a character list: adjacent separators and
leading/trailing separators produce empty fields, and the result is never
empty. -/
def pySplitDotList : List Char → List (List Char)
  | [] => [[]]
  | '.' :: r => [] :: pySplitDotList r
  | c :: r =>
    match pySplitDotList r with
    | h :: t => (c :: h) :: t
    | [] => [[c]]

/-- `s.split('.')[-1]`: the part after the last `.` (the whole string
when there is no dot). -/
def lastDotComponent (s : String) : String :=
  ⟨(pySplitDotList s.data).getLastD []⟩

/-- Decimal value of a digit list. -/
def digitsToNat (l : List Char) : Nat :=
  l.foldl (fun a c => a * 10 + (c.toNat - '0'.toNat)) 0

/-- Python `int(x)` on an already-stripped string: optional sign followed
by at least one ASCII digit.  (Python additionally accepts `_` digit
grouping and Unicode digits; the device output parsed here uses neither.) -/
def pyParseIntList : List Char → Option Int
  | [] => none
  | '+' :: r => if !r.isEmpty && r.all isDigitChar then some (digitsToNat r) else none
  | '-' :: r => if !r.isEmpty && r.all isDigitChar then some (-(digitsToNat r : Int)) else none
  | l => if l.all isDigitChar then some (digitsToNat l) else none

/-- Python `int(x)`. -/
def pyParseInt (s : String) : Option Int :=
  pyParseIntList s.data

/-- The three fields the DSL statistics loop accumulates. -/
structure DslStat where
  admin : String
  rate : String
  sn : String
deriving DecidableEq, Repr

/-- One iteration of `for ln in stats_out.splitlines()` in
`DSLSystem.get_info` (`dsl.py` lines 44–54).  `math.ceil(int(x) /
1_000_000)` is modelled as the exact ceiling `⌈x / 10^6⌉`; the float64
true division used by Python agrees with the exact value for every
`|x| < 9·10^15`, far beyond any DSL line rate. -/
def dslProcessLine (st : DslStat) (ln : String) : DslStat :=
  let s := pyStrip ln
  let st1 :=
    if pyStartsWith s "AdminStatus" then
      { st with admin :=
          if pyUpper (pyStrip (lastDotComponent s)) = "UP" then "Active" else "Inactive" }
    else st
  let st2 :=
    if pyStartsWith s "DslDownLineRate" then
      match pyParseInt (pyStrip (lastDotComponent s)) with
      | some v => { st1 with rate := toString (⌈(v : ℚ) / 1000000⌉ : ℤ) ++ " Mbps" }
      | none => st1
    else st1
  if pyStartsWith s "serialNumber" then
    { st2 with sn := pyStrip (lastDotComponent s) }
  else st2

/-- The statistics parse of one port: fold of the line loop, starting
from `admin = 'Inactive'`, `rate = ''`, `sn = ''`. -/
def dslParseStats (statsOut : String) : DslStat :=
  (pySplitlines statsOut).foldl dslProcessLine ⟨"Inactive", "", ""⟩

/-- Leftmost match of `re.search(r'Description:\s+(.*)', desc_raw)`,
returning group 1: the literal `Description:` followed by at least one
whitespace character (greedily consumed, possibly spanning line breaks),
then the rest of the line. -/
def findDescriptionList : List Char → Option (List Char)
  | [] => none
  | c :: cs =>
    if startsWithList (c :: cs) "Description:".data then
      let after := (c :: cs).drop 12
      if (after.takeWhile isPySpace).isEmpty then findDescriptionList cs
      else some ((after.dropWhile isPySpace).takeWhile (fun ch => ch ≠ '\n'))
    else findDescriptionList cs

/-- The description cell: `m.group(1).strip()` when the regex matches,
Python `None` (rendered as a cell) otherwise.  No claim inspects the
`None` rendering. -/
def dslDescCell (descRaw : String) : String :=
  match findDescriptionList descRaw.data with
  | some g => pyStrip ⟨g⟩
  | none => "None"

/-- `f"1/{slot}/{port}"`. -/
def dslPortId (slot : String) (port : Nat) : String :=
  "1/" ++ slot ++ "/" ++ toString port

/-- One iteration of the DSL per-port loop: parse statistics and
description on success, append the `Error` row when either per-port
command raises. -/
def dslPortRow (slot : String) (port : Nat) (out : Except Unit (String × String)) :
    List String :=
  match out with
  | .error _ => [dslPortId slot port, "", "", "Error"]
  | .ok (statsOut, descRaw) =>
    let st := dslParseStats statsOut
    [dslDescCell descRaw, st.sn, st.rate, st.admin]

/-- The inner `for port in range(1, 25)` loop for one slot. -/
def dslPortLoop (slot : String) (outs : String → Nat → Except Unit (String × String))
    (acc : List (List String)) : List Nat → List (List String)
  | [] => acc
  | p :: ps => dslPortLoop slot outs (acc ++ [dslPortRow slot p (outs slot p)]) ps

/-- The outer `for slot in slots` loop. -/
def dslSlotLoop (outs : String → Nat → Except Unit (String × String))
    (acc : List (List String)) : List String → List (List String)
  | [] => acc
  | s :: ss => dslSlotLoop outs (dslPortLoop s outs acc (List.range' 1 24)) ss

/-- `DSLSystem.get_info` after slot discovery: header row then one row
per (slot, port) pair, ports 1–24 in each slot; `outs` gives each port's
transport outcome. -/
def dslGetInfoRows (slots : List String)
    (outs : String → Nat → Except Unit (String × String)) : List (List String) :=
  dslSlotLoop outs [["Identity", "Serial/Mac", "Speed", "Status"]] slots

/-! ## ETTP/MikroTik scraper (`src/netops/systems/ettp.py` and
`src/netops/parsers/mikrotik_queue.py`)

After neighbor discovery produced the merged modem table, the per-modem
loop pulls three exports over a nested SSH session and derives a speed:

* `_internet_queue_disabled_from_simple` on the simple queue export;
* `parse_queue_export_verbose` / `rate_from_rule` on the verbose export;
* a `speed=(\d+Mbps)` override from the ethernet export.
-/

/-- `shlex` whitespace: space, tab, carriage return, newline. -/
def isShlexSpace (c : Char) : Bool :=
  c = ' ' || c = '\t' || c = '\r' || c = '\n'

/-- `re.sub(r'\\\r?\n\s*', ' ', ·)`: replace each backslash-continued
line break, together with the following whitespace run, by one space.
The flag records whether we are inside the `\s*` tail of a match (where
whitespace is consumed but a new `\\\n` match may begin at the first
non-whitespace character). -/
def joinContAux : Bool → List Char → List Char
  | _, [] => []
  | _, '\\' :: '\r' :: '\n' :: r => ' ' :: joinContAux true r
  | _, '\\' :: '\n' :: r => ' ' :: joinContAux true r
  | true, c :: r => if isPySpace c then joinContAux true r else c :: joinContAux false r
  | false, c :: r => c :: joinContAux false r

/-- `_normalize_simple_export`: strip, then join backslash-continued
lines. -/
def normalize_simple_export (s : String) : String :=
  ⟨joinContAux false (pyStripList s.data)⟩

/-- `\b` after the end of a match: the next character is absent or not a
word character (the preceding matched character being a word character). -/
def boundaryOk : List Char → Bool
  | [] => true
  | c :: _ => !(isWordChar c)

/-- One candidate of `re.finditer(r'(?m)^\s*add\b[^\n]*', t)` anchored at
a line start: greedily skip whitespace (which may span blank lines), then
require `add` with a word boundary, and take the rest of that line.
Returns the matched text (leading whitespace included, as in `group(0)`)
and the remainder of the input after the match. -/
def tryAddMatch (cs : List Char) : Option (List Char × List Char) :=
  let ws := cs.takeWhile isPySpace
  let rest := cs.dropWhile isPySpace
  if startsWithList rest "add".data then
    let r := rest.drop 3
    if boundaryOk r then
      let line := r.takeWhile (fun ch => ch ≠ '\n')
      let rest2 := r.dropWhile (fun ch => ch ≠ '\n')
      some (ws ++ "add".data ++ line, rest2)
    else none
  else none

/-- The `finditer` scan for `(?m)^\s*add\b[^\n]*`: left to right,
non-overlapping, each match starting at a line start.  `fuel` bounds the
recursion; the callers pass the input length, which every step strictly
decreases below (matches consume at least the three `add` characters). -/
def addLinesAux : Nat → Bool → List Char → List (List Char)
  | 0, _, _ => []
  | _ + 1, _, [] => []
  | fuel + 1, atLineStart, c :: cs =>
    if atLineStart then
      match tryAddMatch (c :: cs) with
      | some (m, rest) => m :: addLinesAux fuel false rest
      | none => addLinesAux fuel (c = '\n') cs
    else addLinesAux fuel (c = '\n') cs

/-- `re.search(r'\bname="?Internet"?\b', ·)` tested at one position.
The trailing `"?\b` succeeds (through backtracking) exactly when
`Internet` after the optional opening quote is followed by nothing or by
a non-word character. -/
def nameInternetAt (cs : List Char) : Bool :=
  if startsWithList cs "name=".data then
    let r := cs.drop 5
    let r2 := if startsWithList r ['"'] then r.drop 1 else r
    startsWithList r2 "Internet".data && boundaryOk (r2.drop 8)
  else false

/-- `re.search(r'\bname="?Internet"?\b', ·)`: scan while tracking whether
the previous character is a word character (for the leading `\b`). -/
def searchNameInternet : Bool → List Char → Bool
  | _, [] => false
  | prevWord, c :: cs =>
    (!prevWord && nameInternetAt (c :: cs)) || searchNameInternet (isWordChar c) cs

/-- `re.search(r'\btarget=Bridge_Internet\b', ·)` tested at one position. -/
def targetBridgeAt (cs : List Char) : Bool :=
  startsWithList cs "target=Bridge_Internet".data &&
    boundaryOk (cs.drop 22)

/-- `re.search(r'\btarget=Bridge_Internet\b', ·)`. -/
def searchTargetBridge : Bool → List Char → Bool
  | _, [] => false
  | prevWord, c :: cs =>
    (!prevWord && targetBridgeAt (c :: cs)) || searchTargetBridge (isWordChar c) cs

/-- `re.search(r'\bdisabled=(yes|no)\b', ·)` tested at one position,
returning the group (`true` for `yes`). -/
def disabledFlagAt (cs : List Char) : Option Bool :=
  if startsWithList cs "disabled=".data then
    let r := cs.drop 9
    if startsWithList r "yes".data && boundaryOk (r.drop 3) then some true
    else if startsWithList r "no".data && boundaryOk (r.drop 2) then some false
    else none
  else none

/-- `re.search(r'\bdisabled=(yes|no)\b', ·)`: first (leftmost) match. -/
def findDisabledFlag : Bool → List Char → Option Bool
  | _, [] => none
  | prevWord, c :: cs =>
    match (if !prevWord then disabledFlagAt (c :: cs) else none) with
    | some b => some b
    | none => findDisabledFlag (isWordChar c) cs

/-- `_internet_queue_disabled_from_simple(qtext_simple)` from `ettp.py`:
normalise, collect the `add` lines, keep those naming the Internet queue
(by `name="?Internet"?` or `target=Bridge_Internet`), stably sort the
explicit `name=Internet` candidates first, and read `disabled=(yes|no)`
off the first candidate. -/
def internet_queue_disabled_from_simple (q : String) : Bool :=
  let t := (normalize_simple_export q).data
  let addLines := addLinesAux t.length true t
  let candidates := addLines.filter
    (fun ln => searchNameInternet false ln || searchTargetBridge false ln)
  match candidates with
  | [] => false
  | _ :: _ =>
    -- `candidates.sort(key=λs. 0 if name-match else 1)` is a stable binary-key
    -- sort: the name-matching candidates precede the rest, each group in order.
    let sorted := candidates.filter (fun ln => searchNameInternet false ln)
      ++ candidates.filter (fun ln => !(searchNameInternet false ln))
    match sorted with
    | [] => false
    | rule :: _ =>
      match findDisabledFlag false rule with
      | some b => b
      | none => false

/-- A value of the token dictionary built by `parse_queue_export_verbose`:
`k=v` tokens store strings, bare tokens store Python `True`. -/
inductive QVal where
  | str (s : String)
  | flag
deriving DecidableEq, Repr

/-- `str(·)` on a dictionary value. -/
def QVal.pyStr : QVal → String
  | .str s => s
  | .flag => "True"

/-- Python truthiness of a dictionary value. -/
def QVal.truthy : QVal → Bool
  | .str s => s ≠ ""
  | .flag => true

/-- `d[k] = v` with Python `dict` semantics: update in place if the key
exists, else append. -/
def pyDictSet (d : List (String × QVal)) (k : String) (v : QVal) : List (String × QVal) :=
  if d.any (fun p => p.1 = k) then d.map (fun p => if p.1 = k then (k, v) else p)
  else d ++ [(k, v)]

/-- `d.get(k)`. -/
def pyDictGet (d : List (String × QVal)) (k : String) : Option QVal :=
  (d.find? (fun p => p.1 = k)).map Prod.snd

/-- Quoting state of the `shlex` posix-mode tokenizer. -/
inductive ShMode where
  | normal
  | single
  | double
deriving DecidableEq

/-- `shlex.split` (posix mode): whitespace-separated tokens, `'...'` and
`"..."` quoting, backslash escapes (inside double quotes only `\"` and
`\\` are special).  An unterminated quote or a trailing escape raises
`ValueError`, modelled as `.error`. -/
def shlexAux : ShMode → Option (List Char) → List (List Char) → List Char →
    Except Unit (List (List Char))
  | .normal, cur, toks, [] =>
    .ok (toks ++ (match cur with | some t => [t] | none => []))
  | .normal, cur, toks, c :: r =>
    if isShlexSpace c then
      match cur with
      | some t => shlexAux .normal none (toks ++ [t]) r
      | none => shlexAux .normal none toks r
    else if c = '\'' then shlexAux .single (some (cur.getD [])) toks r
    else if c = '"' then shlexAux .double (some (cur.getD [])) toks r
    else if c = '\\' then
      match r with
      | [] => .error ()
      | e :: r2 => shlexAux .normal (some (cur.getD [] ++ [e])) toks r2
    else shlexAux .normal (some (cur.getD [] ++ [c])) toks r
  | .single, _, _, [] => .error ()
  | .single, cur, toks, c :: r =>
    if c = '\'' then shlexAux .normal cur toks r
    else shlexAux .single (some (cur.getD [] ++ [c])) toks r
  | .double, _, _, [] => .error ()
  | .double, cur, toks, c :: r =>
    if c = '"' then shlexAux .normal cur toks r
    else if c = '\\' then
      match r with
      | [] => .error ()
      | e :: r2 =>
        if e = '"' || e = '\\' then shlexAux .double (some (cur.getD [] ++ [e])) toks r2
        else shlexAux .double (some (cur.getD [] ++ ['\\', e])) toks r2
    else shlexAux .double (some (cur.getD [] ++ [c])) toks r

/-- `shlex.split(rule)`. -/
def shlexSplit (s : String) : Except Unit (List String) :=
  (shlexAux .normal none [] s.data).map (fun ts => ts.map (fun t => ⟨t⟩))

/-- One token into a dictionary entry: `k, v = t.split('=', 1)` when `=`
occurs, else the bare token mapping to `True`. -/
def tokenToEntry (t : String) : String × QVal :=
  if t.data.contains '=' then
    (⟨t.data.takeWhile (fun c => c ≠ '=')⟩,
     .str ⟨(t.data.dropWhile (fun c => c ≠ '=')).drop 1⟩)
  else (t, .flag)

/-- The token loop of `parse_queue_export_verbose` for one rule. -/
def buildRule (toks : List String) : List (String × QVal) :=
  toks.foldl (fun d t => pyDictSet d (tokenToEntry t).1 (tokenToEntry t).2) []

/-- The line loop of `parse_queue_export_verbose`: skip `/...` lines,
start a new item at each `add ` line (flushing the current one), append
continuation lines to an open item. -/
def queueItemsAux (items cur : List String) : List String → List String
  | [] => items ++ (if cur.isEmpty then [] else [String.intercalate " " cur])
  | ln :: rest =>
    if pyStartsWith ln "/" then queueItemsAux items cur rest
    else if pyStartsWith ln "add " then
      queueItemsAux (items ++ (if cur.isEmpty then [] else [String.intercalate " " cur]))
        [pyStrip ⟨ln.data.drop 4⟩] rest
    else
      if cur.isEmpty then queueItemsAux items cur rest
      else queueItemsAux items (cur ++ [ln]) rest

/-- `parse_queue_export_verbose(text)` from `mikrotik_queue.py`: stripped
non-empty lines, grouped into rules, each tokenized by `shlex.split` and
folded into a dictionary.  A `shlex` error on any rule propagates. -/
def parse_queue_export_verbose (text : String) : Except Unit (List (List (String × QVal))) :=
  let lines := ((pySplitlines text).map pyStrip).filter (fun l => l ≠ "")
  (queueItemsAux [] [] lines).mapM (fun rule => (shlexSplit rule).map buildRule)

/-- `s.split('/')[0]`. -/
def slashHead (s : String) : String :=
  ⟨s.data.takeWhile (fun c => c ≠ '/')⟩

/-- `s.split('_')[0]`. -/
def underscoreHead (s : String) : String :=
  ⟨s.data.takeWhile (fun c => c ≠ '_')⟩

/-- `re.fullmatch(r'(\d+)([MK])?', head, flags=re.I)`: the whole string
is a digit run optionally followed by one of `M`, `K`, `m`, `k`. -/
def rateHeadMatch (head : String) : Option (String × Option Char) :=
  let ds := head.data.takeWhile isDigitChar
  let rest := head.data.dropWhile isDigitChar
  if ds.isEmpty then none
  else
    match rest with
    | [] => some (⟨ds⟩, none)
    | [u] => if u = 'M' || u = 'm' || u = 'K' || u = 'k' then some (⟨ds⟩, some u) else none
    | _ => none

/-- The `max-limit` fallback of `rate_from_rule`: requires
`re.fullmatch(r'(\d+)([MK])', left, flags=re.I)` — unit mandatory. -/
def rateMaxLimit (rule : List (String × QVal)) : Except Unit (Option String) :=
  match pyDictGet rule "max-limit" with
  | some v =>
    if v.truthy then
      match v with
      | .flag => .error ()      -- `True.split('/')` raises AttributeError
      | .str ml =>
        match rateHeadMatch (slashHead ml) with
        | some (num, some u) =>
          .ok (some (if u.toLower = 'm' then num ++ " Mbps" else num ++ " Kbps"))
        | _ => .ok none
    else .ok none
  | none => .ok none

/-- `rate_from_rule(rule)` from `mikrotik_queue.py`. -/
def rate_from_rule (rule : List (String × QVal)) : Except Unit (Option String) :=
  let disabledV := (pyDictGet rule "disabled").getD (.str "no")
  if (["yes", "true", "on", "1"] : List String).contains (pyLower disabledV.pyStr) then
    .ok none
  else
    match pyDictGet rule "queue" with
    | some v =>
      if v.truthy then
        match v with
        | .flag => .error ()    -- `True.split('/')` raises AttributeError
        | .str qf =>
          match rateHeadMatch (underscoreHead (slashHead qf)) with
          | some (num, unit) =>
            .ok (some (match unit with
              | none => num ++ " Mbps"
              | some u => if u.toLower = 'm' then num ++ " Mbps" else num ++ " Kbps"))
          | none => rateMaxLimit rule
      else rateMaxLimit rule
    | none => rateMaxLimit rule

/-- `next((rt for rt in (rate_from_rule(r) for r in rules) if rt), "1000
Mbps")`: lazily evaluate `rate_from_rule` on each rule until the first
truthy rate; an exception in an earlier rule propagates. -/
def firstTruthyRate : List (List (String × QVal)) → Except Unit String
  | [] => .ok "1000 Mbps"
  | r :: rs =>
    match rate_from_rule r with
    | .error e => .error e
    | .ok (some rt) => if rt = "" then firstTruthyRate rs else .ok rt
    | .ok none => firstTruthyRate rs

/-- `re.findall(r'\bspeed=(\d+Mbps)\b', itext)` tested at one position:
`speed=` then a digit run then `Mbps` with a trailing word boundary. -/
def speedTokenAt (cs : List Char) : Option (List Char) :=
  if startsWithList cs "speed=".data then
    let r := cs.drop 6
    let ds := r.takeWhile isDigitChar
    if ds.isEmpty then none
    else
      let r2 := r.dropWhile isDigitChar
      if startsWithList r2 "Mbps".data && boundaryOk (r2.drop 4) then
        some (ds ++ "Mbps".data)
      else none
  else none

/-- First match of `re.findall(r'\bspeed=(\d+Mbps)\b', ·)` (`hw[0]`). -/
def findSpeedToken : Bool → List Char → Option (List Char)
  | _, [] => none
  | prevWord, c :: cs =>
    match (if !prevWord then speedTokenAt (c :: cs) else none) with
    | some t => some t
    | none => findSpeedToken (isWordChar c) cs

/-- The speed computation of the ETTP per-modem `try` block (`ettp.py`
lines 130–141): `1000 Mbps` when the simple export shows the Internet
queue disabled, otherwise the first rate parsed from the verbose export
(defaulting to `1000 Mbps`); in either case an ethernet-reported
`speed=<n>Mbps` overrides the result with a trailing `*`. -/
def ettpModemSpeed (qsimple qverb itext : String) : Except Unit String := do
  let base ←
    if internet_queue_disabled_from_simple qsimple then
      pure "1000 Mbps"
    else do
      let rules ← parse_queue_export_verbose qverb
      firstTruthyRate rules
  match findSpeedToken false itext.data with
  | some hw => pure ((⟨hw⟩ : String) ++ "*")
  | none => pure base

/-- A row of the merged neighbor table iterated by `ETTPSystem.get_info`
(`NaN` modelled as `none`). -/
structure EttpModem where
  identity : String
  mac : String
  modemIP : Option String
  intIP : Option String
  pubIP : Option String
deriving DecidableEq, Repr

/-- One iteration of the ETTP per-modem loop (`ettp.py` lines 107–149):
rows for missing modem IP and inactive modems, then the nested-SSH
`try` block — `out` is the outcome of `_ssh_exec_many` with the three
exports, and any exception there or in the parsing chain yields the
`Could Not Connect` row. -/
def ettpModemRow (m : EttpModem) (out : Except String (String × String × String)) :
    List String :=
  match m.modemIP with
  | none => [m.identity, m.mac, "No Data", "No Modem IP"]
  | some _ =>
    if m.intIP.isNone && m.pubIP.isNone then
      [m.identity, m.mac, "No Data", "Inactive"]
    else
      match out with
      | .error _ => [m.identity, m.mac, "No Data", "Could Not Connect"]
      | .ok (qs, qv, it) =>
        match ettpModemSpeed qs qv it with
        | .ok rate => [m.identity, m.mac, rate, "Active"]
        | .error _ => [m.identity, m.mac, "No Data", "Could Not Connect"]

/-- The `results.append` loop over the merged modem table. -/
def ettpLoop (acc : List (List String)) :
    List (EttpModem × Except String (String × String × String)) → List (List String)
  | [] => acc
  | (m, out) :: rest => ettpLoop (acc ++ [ettpModemRow m out]) rest

/-- `ETTPSystem.get_info` after discovery: header row then one row per
modem of the merged neighbor table. -/
def ettpGetInfoRows (modems : List (EttpModem × Except String (String × String × String))) :
    List (List String) :=
  ettpLoop [["Identity", "Mac/Serial", "Speed", "Status"]] modems

/-! ## Orchestrator: `run_many` (`src/netops/orchestrator.py`)

`run_many` fans the input sites out to per-site tasks.  Each task runs
`factory(site)` followed by `system.get_info(...)` inside a `try`, wraps
the returned table in a `DataFrame`, and on any exception substitutes a
synthetic error table.  Results are appended in the order
`asyncio.as_completed` yields the tasks, which is an arbitrary
permutation of the input; the embedding takes that completion order as an
explicit argument. -/

/-- A row of the inventory, as consumed by `run_many` (`site.property`
and `site.system` are the only fields it reads). -/
structure Site where
  property : String
  system : String
deriving DecidableEq, Repr

/-- A pandas `DataFrame` built as `pd.DataFrame(rows, columns=cols)`,
modelled as `(cols, rows)`. -/
abbrev Frame := List String × List (List String)

/-- The body of `run_many.one` after `factory`/`get_info` have run (or
raised).  `outcome` is the combined result of `factory(site)` and
`await system.get_info(...)`: `.ok table` if both succeeded, `.error e`
(with `e = str(exception)`) if either raised.

* Success: `pd.DataFrame(table[1:], columns=table[0])`.  An empty table
  makes `table[0]` raise `IndexError("list index out of range")`, which
  the same `except` turns into the error frame.
* Failure: `pd.DataFrame([["Property","System","Status"], [site.property,
  site.system, f"Error: {e}"]], columns=["Property","System","Status"])`
  — note the header row is part of the *data* passed to the frame. -/
def siteFrame (site : Site) (outcome : Except String (List (List String))) : Frame :=
  match outcome with
  | .ok [] =>
    (["Property", "System", "Status"],
     [["Property", "System", "Status"],
      [site.property, site.system, "Error: list index out of range"]])
  | .ok (hdr :: rows) => (hdr, rows)
  | .error e =>
    (["Property", "System", "Status"],
     [["Property", "System", "Status"],
      [site.property, site.system, "Error: " ++ e]])

/-- The tuple `(site.property, site.system, df)` returned by `run_many.one`. -/
def runOne (outcomes : Site → Except String (List (List String))) (site : Site) :
    String × String × Frame :=
  (site.property, site.system, siteFrame site (outcomes site))

/-- The `results.append(res)` loop of `run_many`: results accumulate in
completion order. -/
def runManyLoop (outcomes : Site → Except String (List (List String)))
    (acc : List (String × String × Frame)) : List Site → List (String × String × Frame)
  | [] => acc
  | s :: rest => runManyLoop outcomes (acc ++ [runOne outcomes s]) rest

/-- `run_many(sites, factory, ...)`: `completed` is the order in which
`asyncio.as_completed` yields the per-site tasks — an arbitrary
permutation of `sites`. -/
def run_many (outcomes : Site → Except String (List (List String)))
    (completed : List Site) : List (String × String × Frame) :=
  runManyLoop outcomes [] completed

/-! ## Concurrency bound of `run_many` (semaphore model)

`run_many` creates `sem = asyncio.Semaphore(max(1, concurrency))` and each
per-site task executes its whole body — including the transport session —
inside `async with sem`.  The embedding is a transition system over the
semaphore state: a task may enter the critical section only when a permit
is available, and returns its permit when it leaves.  Any interleaving the
asyncio scheduler can produce is a path of this system. -/

/-- State of the semaphore-guarded fan-out: free permits, tasks not yet
entered, tasks currently between semaphore acquisition and release
(holding a transport session), tasks finished. -/
structure SemState where
  permits : Nat
  pending : Nat
  inSession : Nat
  finished : Nat
deriving DecidableEq, Repr

/-- Initial state of a `run_many` invocation with concurrency bound `k`
over `n` sites: the semaphore holds `max 1 k` permits
(`asyncio.Semaphore(max(1, concurrency))`), all `n` tasks pending. -/
def semInit (k n : Nat) : SemState :=
  ⟨max 1 k, n, 0, 0⟩

/-- One scheduler step: a pending task acquires a free permit and enters
its session, or a task in session releases its permit and finishes. -/
inductive SemStep : SemState → SemState → Prop
  | acquire (p w i f : Nat) :
      SemStep ⟨p + 1, w + 1, i, f⟩ ⟨p, w, i + 1, f⟩
  | release (p w i f : Nat) :
      SemStep ⟨p, w, i + 1, f⟩ ⟨p + 1, w, i, f + 1⟩

/-- States reachable during a `run_many` invocation with concurrency
bound `k` and `n` sites. -/
inductive SemReachable (k n : Nat) : SemState → Prop
  | init : SemReachable k n (semInit k n)
  | step {s t : SemState} : SemReachable k n s → SemStep s t → SemReachable k n t

/-! ## Offline comparison tool (`src/netops/reports/speed_compare.py`)

`compare_runs` outer-merges the previous and current snapshot tables on
the stripped `(Property, Identity)` key and emits one change record per
merged row that carries at least one change flag.  The embedding models
the merge for tables whose keys are unique (the snapshot invariant), and
`pd.to_numeric` with exact rationals: two decimal strings denote the same
float64 exactly when the claims compare them, since equal rationals round
to equal floats. -/

/-- A snapshot row after `ensure_columns`: `Property`, `Identity`,
`Mac/Serial` and `Status` are `astype(str)`-ed, `Speed` may still be
missing (`NaN`, modelled as `none`). -/
structure AuditRow where
  property : String
  identity : String
  mac : String
  speed : Option String
  status : String
deriving DecidableEq, Repr

/-- First match of `str.extract(r"([0-9]+\.?[0-9]*)")`: at the first
digit, the maximal digit run, an optional dot, and a further digit run. -/
def extractNumToken : List Char → Option (List Char)
  | [] => none
  | c :: cs =>
    if isDigitChar c then
      let ds := (c :: cs).takeWhile isDigitChar
      let rest := (c :: cs).dropWhile isDigitChar
      some (match rest with
        | '.' :: r2 => ds ++ '.' :: r2.takeWhile isDigitChar
        | _ => ds)
    else extractNumToken cs

/-- Numeric value of an extracted token `⟨digits⟩[.⟨digits⟩]`. -/
def numTokenValue (t : List Char) : ℚ :=
  let intPart := t.takeWhile isDigitChar
  let fracPart := (t.dropWhile isDigitChar).drop 1
  (digitsToNat intPart : ℚ) + (digitsToNat fracPart : ℚ) / (10 ^ fracPart.length : ℚ)

/-- `to_numeric_speed` from `speed_compare.py`: extract the first
number-like chunk and convert, `NaN` (`none`) when there is none. -/
def to_numeric_speed (s : String) : Option ℚ :=
  (extractNumToken s.data).map numTokenValue

/-- The speed comparison of the `"both"` branch of `compare_runs`
(`speed_compare.py` lines 294–313): appearance/disappearance of the value
is `Speed Changed`; with both present the numeric comparison decides
(equal numbers: no flag, even if the strings differ); if either numeric
parse fails, case-insensitive stripped string comparison decides. -/
def speedChangeFlags (prevSpeed currSpeed : Option String) : List String :=
  match prevSpeed, currSpeed with
  | none, some _ => ["Speed Changed"]
  | some _, none => ["Speed Changed"]
  | some ps, some cs =>
    match to_numeric_speed ps, to_numeric_speed cs with
    | some a, some b =>
      if b > a then ["Speed Increased"]
      else if b < a then ["Speed Decreased"]
      else []
    | _, _ =>
      if pyLower (pyStrip ps) ≠ pyLower (pyStrip cs) then ["Speed Changed"] else []
  | none, none => []

/-- The `Equipment Changed` flag: both Mac/Serial values truthy and
different. -/
def equipmentFlags (prevMac currMac : String) : List String :=
  if prevMac ≠ "" && currMac ≠ "" && prevMac ≠ currMac then ["Equipment Changed"] else []

/-- The `Status Changed` flag (the arrow text reproduces the literal
mojibake of `speed_compare.py` line 321). -/
def statusFlags (prevStatus currStatus : String) : List String :=
  if prevStatus ≠ "" && currStatus ≠ "" && prevStatus ≠ currStatus then
    ["Status Changed (" ++ prevStatus ++ " â†’ " ++ currStatus ++ ")"]
  else []

/-- A merged row of the outer merge on `(Property, Identity)`. -/
inductive MergedRow where
  | both (p c : AuditRow)
  | leftOnly (p : AuditRow)
  | rightOnly (c : AuditRow)
deriving DecidableEq, Repr

/-- One record of `changes_df` (`NaN` cells from the missing merge side
modelled as `none`). -/
structure ChangeRecord where
  property : String
  identity : String
  change : String
  prevSpeed : Option String
  currSpeed : Option String
  prevSpeedNum : Option ℚ
  currSpeedNum : Option ℚ
  prevMac : Option String
  currMac : Option String
  prevStatus : Option String
  currStatus : Option String
deriving DecidableEq, Repr

/-- The body of the `for idx, row in merged.iterrows()` loop: the change
flags of one merged row and, when any flag is present, its record. -/
def recordOfMerged : MergedRow → Option ChangeRecord
  | .both p c =>
    let flags := speedChangeFlags p.speed c.speed ++ equipmentFlags p.mac c.mac ++
      statusFlags p.status c.status
    if flags.isEmpty then none
    else some
      ⟨p.property, p.identity, String.intercalate "; " flags,
       p.speed, c.speed, p.speed.bind to_numeric_speed, c.speed.bind to_numeric_speed,
       some p.mac, some c.mac, some p.status, some c.status⟩
  | .leftOnly p =>
    some ⟨p.property, p.identity, "Removed Entry",
      p.speed, none, p.speed.bind to_numeric_speed, none,
      some p.mac, none, some p.status, none⟩
  | .rightOnly c =>
    some ⟨c.property, c.identity, "New Entry",
      none, c.speed, none, c.speed.bind to_numeric_speed,
      none, some c.mac, none, some c.status⟩

/-- Replace a row's Speed value (used to state "two tables identical
except one row's Speed"). -/
def setSpeed (v : Option String) (r : AuditRow) : AuditRow :=
  { r with speed := v }

/-- The `.astype(str).str.strip()` normalisation of the key columns. -/
def normKeyRow (r : AuditRow) : AuditRow :=
  { r with property := pyStrip r.property, identity := pyStrip r.identity }

/-- The merge key `(Property, Identity)`. -/
def rowKey (r : AuditRow) : String × String :=
  (r.property, r.identity)

/-- `prev_df.merge(curr_df, on=["Property","Identity"], how="outer",
indicator=True)` for tables with unique keys: left rows in order (paired
with their match, or left-only), then the right-only rows in order. -/
def mergeOuter (prev curr : List AuditRow) : List MergedRow :=
  prev.map (fun p =>
    match curr.find? (fun c => rowKey c = rowKey p) with
    | some c => MergedRow.both p c
    | none => MergedRow.leftOnly p) ++
  (curr.filter (fun c => !(prev.any (fun p => rowKey p = rowKey c)))).map MergedRow.rightOnly

/-- `compare_runs(prev_df, curr_df)` restricted to its `changes_df`
output: normalise the keys, outer-merge, and keep the records of rows
with at least one change flag. -/
def compare_runs (prev curr : List AuditRow) : List ChangeRecord :=
  (mergeOuter (prev.map normKeyRow) (curr.map normKeyRow)).filterMap recordOfMerged

end Netops

namespace Netops

/-! ## General lemmas about the embedding -/

theorem cmtsLoop_eq (acc : List (List String))
    (l : List ((String × String) × Except String String)) :
    cmtsLoop acc l = acc ++ l.map (fun x => cmtsModemRow x.1.2 x.1.1 x.2) := by
  induction l generalizing acc with
  | nil => simp [cmtsLoop]
  | cons x rest ih => obtain ⟨⟨mac, identity⟩, out⟩ := x; simp [cmtsLoop, ih]

theorem dslPortLoop_eq (slot : String) (outs : String → Nat → Except Unit (String × String))
    (acc : List (List String)) (ports : List Nat) :
    dslPortLoop slot outs acc ports = acc ++ ports.map (fun p => dslPortRow slot p (outs slot p)) := by
  induction ports generalizing acc with
  | nil => simp [dslPortLoop]
  | cons p ps ih => simp [dslPortLoop, ih]

theorem dslSlotLoop_eq (outs : String → Nat → Except Unit (String × String))
    (acc : List (List String)) (slots : List String) :
    dslSlotLoop outs acc slots =
      acc ++ slots.flatMap
        (fun s => (List.range' 1 24).map (fun p => dslPortRow s p (outs s p))) := by
  induction slots generalizing acc with
  | nil => simp [dslSlotLoop]
  | cons s ss ih => simp [dslSlotLoop, ih, dslPortLoop_eq]

theorem ettpLoop_eq (acc : List (List String))
    (l : List (EttpModem × Except String (String × String × String))) :
    ettpLoop acc l = acc ++ l.map (fun x => ettpModemRow x.1 x.2) := by
  induction l generalizing acc with
  | nil => simp [ettpLoop]
  | cons x rest ih => obtain ⟨m, out⟩ := x; simp [ettpLoop, ih]

theorem runManyLoop_eq (outcomes : Site → Except String (List (List String)))
    (acc : List (String × String × Frame)) (l : List Site) :
    runManyLoop outcomes acc l = acc ++ l.map (runOne outcomes) := by
  induction l generalizing acc with
  | nil => simp [runManyLoop]
  | cons s rest ih => simp [runManyLoop, ih]

theorem run_many_eq_map (outcomes : Site → Except String (List (List String)))
    (completed : List Site) :
    run_many outcomes completed = completed.map (runOne outcomes) := by
  simp [run_many, runManyLoop_eq]

theorem semReachable_permit_conservation {k n : Nat} {s : SemState}
    (h : SemReachable k n s) : s.permits + s.inSession = max 1 k := by
  induction h with
  | init => simp [semInit]
  | step _ hstep ih => cases hstep <;> simp_all <;> omega

theorem intercalate_singleton (sep a : String) : String.intercalate sep [a] = a := by
  cases a
  rfl

/-- `to_numeric_speed` on a string whose extracted token is a pure digit
run with value `n`. -/
theorem to_numeric_speed_nat (s : String) (ds : List Char) (n : Nat)
    (h1 : extractNumToken s.data = some ds)
    (h2 : ds.dropWhile isDigitChar = [])
    (h3 : digitsToNat ds = n) :
    to_numeric_speed s = some (n : ℚ) := by
  have ht : ds.takeWhile isDigitChar = ds := by
    have hh := List.takeWhile_append_dropWhile (p := isDigitChar) (l := ds)
    rw [h2] at hh
    simpa using hh
  have hval : numTokenValue ds = (n : ℚ) := by
    simp only [numTokenValue]
    rw [ht, h2, h3]
    norm_num [digitsToNat]
  unfold to_numeric_speed
  rw [h1]
  simp [hval]

/-- In a list of rows with pairwise-distinct keys, `find?` on the key of
a member returns exactly that member. -/
theorem find?_rowKey_of_nodup :
    ∀ (l : List AuditRow) (p : AuditRow), (l.map rowKey).Nodup → p ∈ l →
      l.find? (fun c => rowKey c = rowKey p) = some p := by
  intro l
  induction l with
  | nil => intro p _ hp; simp at hp
  | cons a t ih =>
    intro p hnd hp
    rw [List.map_cons, List.nodup_cons] at hnd
    by_cases hak : rowKey a = rowKey p
    · have hpa : p = a := by
        rcases List.mem_cons.mp hp with h | h
        · exact h
        · exact absurd (hak ▸ List.mem_map_of_mem rowKey h) hnd.1
      subst hpa
      rw [List.find?_cons]
      simp [hak]
    · have hne : decide (rowKey a = rowKey p) = false := by simp [hak]
      have hpt : p ∈ t := by
        rcases List.mem_cons.mp hp with h | h
        · exact absurd (h ▸ rfl) hak
        · exact h
      simp only [List.find?_cons, hne]
      exact ih p hnd.2 hpt

/-- A merged row pairing a row with itself carries no change flags. -/
theorem recordOfMerged_both_self (p : AuditRow) : recordOfMerged (.both p p) = none := by
  have hs : speedChangeFlags p.speed p.speed = [] := by
    cases hsp : p.speed with
    | none => rfl
    | some s =>
      simp only [speedChangeFlags]
      cases hn : to_numeric_speed s with
      | none => simp
      | some a => simp [lt_irrefl]
  simp [recordOfMerged, hs, equipmentFlags, statusFlags]

theorem normKeyRow_speed (x : AuditRow) : (normKeyRow x).speed = x.speed := rfl

theorem normKeyRow_mac (x : AuditRow) : (normKeyRow x).mac = x.mac := rfl

theorem normKeyRow_status (x : AuditRow) : (normKeyRow x).status = x.status := rfl

theorem setSpeed_speed (v : Option String) (x : AuditRow) : (setSpeed v x).speed = v := rfl

theorem setSpeed_mac (v : Option String) (x : AuditRow) : (setSpeed v x).mac = x.mac := rfl

theorem setSpeed_status (v : Option String) (x : AuditRow) : (setSpeed v x).status = x.status := rfl

theorem rowKey_setSpeed (v : Option String) (x : AuditRow) :
    rowKey (setSpeed v x) = rowKey x := rfl

/-- The change flags of a `"both"` row whose previous Speed is `50 Mbps`
and whose current Speed is `100 Mbps`, all other fields equal. -/
theorem record_speed_increase (p : AuditRow) (hp : p.speed = some "50 Mbps") :
    recordOfMerged (.both p (setSpeed (some "100 Mbps") p)) =
      some ⟨p.property, p.identity, "Speed Increased",
            some "50 Mbps", some "100 Mbps", some 50, some 100,
            some p.mac, some p.mac, some p.status, some p.status⟩ := by
  have h50 : to_numeric_speed "50 Mbps" = some ((50 : Nat) : ℚ) :=
    to_numeric_speed_nat "50 Mbps" ['5', '0'] 50 (by decide) (by decide) (by decide)
  have h100 : to_numeric_speed "100 Mbps" = some ((100 : Nat) : ℚ) :=
    to_numeric_speed_nat "100 Mbps" ['1', '0', '0'] 100 (by decide) (by decide) (by decide)
  have hflags : speedChangeFlags (some "50 Mbps") (some "100 Mbps") = ["Speed Increased"] := by
    simp only [speedChangeFlags, h50, h100]
    norm_num
  simp only [recordOfMerged, setSpeed_speed, setSpeed_mac, setSpeed_status, hp, hflags,
    equipmentFlags, statusFlags]
  norm_num [intercalate_singleton, h50, h100]

theorem startsWithList_ne_head {l p q : List Char} {c d : Char}
    (h : startsWithList l (c :: p) = true) (hne : d ≠ c) :
    startsWithList l (d :: q) = false := by
  cases l with
  | nil => simp [startsWithList] at h
  | cons a as =>
    simp only [startsWithList, Bool.and_eq_true, decide_eq_true_eq] at h
    obtain ⟨rfl, -⟩ := h
    have hcd : (decide (a = d)) = false := by
      simp only [decide_eq_false_iff_not]
      exact fun hcd => hne hcd.symm
    simp [startsWithList, hcd]

theorem dsl_rate_line_not_admin {s : String}
    (h : pyStartsWith s "DslDownLineRate" = true) :
    pyStartsWith s "AdminStatus" = false :=
  startsWithList_ne_head h (by decide)

theorem dsl_rate_line_not_serial {s : String}
    (h : pyStartsWith s "DslDownLineRate" = true) :
    pyStartsWith s "serialNumber" = false :=
  startsWithList_ne_head h (by decide)

/-- Lines not starting with `DslDownLineRate` leave the accumulated
`rate` untouched. -/
theorem dsl_foldl_rate_invariant (post : List String) :
    ∀ st : DslStat, (∀ l' ∈ post, pyStartsWith (pyStrip l') "DslDownLineRate" = false) →
      (post.foldl dslProcessLine st).rate = st.rate := by
  induction post with
  | nil => intro st _; rfl
  | cons l' rest ih =>
    intro st h
    have hl' := h l' (by simp)
    have hrest : ∀ x ∈ rest, pyStartsWith (pyStrip x) "DslDownLineRate" = false :=
      fun x hx => h x (by simp [hx])
    rw [List.foldl_cons, ih _ hrest]
    cases hA : pyStartsWith (pyStrip l') "AdminStatus" <;>
      cases hS : pyStartsWith (pyStrip l') "serialNumber" <;>
        simp [dslProcessLine, hl', hA, hS]

/-- Processing a `DslDownLineRate` line whose last dot-component parses
as `v` sets `rate` to the ceiling-rounded Mbps string. -/
theorem dslProcessLine_rate {st : DslStat} {l : String} {v : Int}
    (hd : pyStartsWith (pyStrip l) "DslDownLineRate" = true)
    (hv : pyParseInt (pyStrip (lastDotComponent (pyStrip l))) = some v) :
    (dslProcessLine st l).rate = toString (⌈(v : ℚ) / 1000000⌉ : ℤ) ++ " Mbps" := by
  have hA := dsl_rate_line_not_admin hd
  have hS := dsl_rate_line_not_serial hd
  simp only [dslProcessLine, hd, hA, hS, hv]
  rfl

/-- C6: `pick_speed_and_note [512, 0, 50, 1000]` returns exactly
`("50 Mbps", "Camera profile present")`: the sentinels 0 and 512 are
filtered out, the lowest remaining value 50 becomes the speed, and the
presence of 1000 among several remaining profiles yields the
camera-profile note. -/
theorem c6_pick_speed_and_note :
    pick_speed_and_note [512, 0, 50, 1000] = (some "50 Mbps", "Camera profile present") := by
  decide

/-- C1: for every finite list of input sites, `run_many` returns exactly
one `(site.property, site.system, table)` entry per input site — whatever
the per-site outcomes (success or raised exception) and whatever
completion order `asyncio.as_completed` yields — so no device is dropped
and none is duplicated: the result list is a permutation of the per-site
entries, with matching length and element counts. -/
theorem c1_run_many_one_entry_per_site
    (outcomes : Site → Except String (List (List String)))
    (sites completed : List Site) (hperm : completed.Perm sites) :
    (run_many outcomes completed).Perm (sites.map (runOne outcomes)) ∧
    (run_many outcomes completed).length = sites.length ∧
    ∀ e, (run_many outcomes completed).countP (· = e) =
      (sites.map (runOne outcomes)).countP (· = e) := by
  rw [run_many_eq_map]
  refine ⟨hperm.map _, ?_, fun e => (hperm.map _).countP_eq _⟩
  simpa using hperm.length_eq

/-- Witness for C1 at a concrete two-site run (one site succeeding, one
raising), completed in reverse order. -/
theorem c1_run_many_one_entry_per_site_witness :
    (run_many
      (fun s => if s.system = "ETTP" then .ok [["Identity"], ["m1"]] else .error "boom")
      [⟨"Bravo", "CMTS"⟩, ⟨"Alpha", "ETTP"⟩]).Perm
      (([⟨"Alpha", "ETTP"⟩, ⟨"Bravo", "CMTS"⟩] : List Site).map
        (runOne (fun s => if s.system = "ETTP" then .ok [["Identity"], ["m1"]] else .error "boom"))) :=
  (c1_run_many_one_entry_per_site _ _ _ (by decide)).1

/-- C2 counterexample: for a device whose scraper construction or
`get_info` raises, the recorded frame is *not* a single-row table: its
data part has two rows, the first being a duplicate of the header
(`pd.DataFrame([[header], [error row]], columns=header)` in
`orchestrator.py` lines 29–30). -/
theorem c2_error_frame_counterexample :
    (siteFrame ⟨"Alpha", "ETTP"⟩ (.error "boom")).2.length ≠ 1 ∧
    (siteFrame ⟨"Alpha", "ETTP"⟩ (.error "boom")).2 =
      [["Property", "System", "Status"], ["Alpha", "ETTP", "Error: boom"]] := by
  constructor
  · decide
  · rfl

/-- C2 amended: if a device's scraper construction or `get_info` raises
with message `e`, the recorded entry is a table whose columns are
`[Property, System, Status]` and whose data has exactly two rows — a
duplicate of the header followed by
`[site.property, site.system, "Error: " ++ e]` — so the `Status` value of
the error row contains `"Error:"` followed by the exception text. -/
theorem c2_error_frame_amended (site : Site) (e : String) :
    siteFrame site (.error e) =
      (["Property", "System", "Status"],
       [["Property", "System", "Status"],
        [site.property, site.system, "Error: " ++ e]]) ∧
    "Error:".data <+: ("Error: " ++ e).data := by
  refine ⟨rfl, ⟨' ' :: e.data, ?_⟩⟩
  simp [String.data_append]

/-- C3 counterexample: with the concurrency bound set to `K = 0`, the
semaphore is created as `asyncio.Semaphore(max(1, 0)) =
asyncio.Semaphore(1)`, so a state with one task inside a transport
session is reachable — more than `K = 0` tasks hold a session. -/
theorem c3_concurrency_counterexample :
    SemReachable 0 1 ⟨0, 0, 1, 0⟩ ∧ ¬ ((⟨0, 0, 1, 0⟩ : SemState).inSession ≤ 0) := by
  refine ⟨?_, by decide⟩
  have h : SemStep (semInit 0 1) ⟨0, 0, 1, 0⟩ := by
    have he : semInit 0 1 = ⟨1, 1, 0, 0⟩ := rfl
    rw [he]
    exact SemStep.acquire 0 0 0 0
  exact SemReachable.step SemReachable.init h

/-- C3 amended: at no point during a `run_many` invocation with
concurrency bound `k` do more than `max 1 k` device tasks simultaneously
execute between semaphore acquisition and release; in particular, for
every `k ≥ 1` at most `k` tasks hold an active transport session. -/
theorem c3_concurrency_bound_amended (k n : Nat) (s : SemState)
    (h : SemReachable k n s) :
    s.inSession ≤ max 1 k ∧ (1 ≤ k → s.inSession ≤ k) := by
  have hc := semReachable_permit_conservation h
  constructor
  · omega
  · intro hk
    have : max 1 k = k := by omega
    omega

/-- Witness for C3 (amended) on a concrete reachable state: bound 6,
three tasks, one task having acquired a permit. -/
theorem c3_concurrency_bound_amended_witness :
    (⟨5, 2, 1, 0⟩ : SemState).inSession ≤ max 1 6 ∧
    (1 ≤ 6 → (⟨5, 2, 1, 0⟩ : SemState).inSession ≤ 6) :=
  c3_concurrency_bound_amended 6 3 ⟨5, 2, 1, 0⟩
    (SemReachable.step SemReachable.init (SemStep.acquire 5 2 0 0))

/-- C5 counterexample, both failure modes at concrete modems.  The simple
queue export of `cpe-1` contains the add line
`add name="Internet" disabled=yes`, yet the reported Speed is `25 Mbps`
taken from the verbose export: the stable sort keeps the earlier
`disabled=no` candidate first, so the disabled check returns `False`.
For `cpe-2` the check fires, but the ethernet export's `speed=100Mbps`
overrides the Speed with `100Mbps*`.  In both cases the Speed is not
`"1000 Mbps"`. -/
theorem c5_ettp_disabled_counterexample :
    ("add name=\"Internet\" disabled=yes" ∈ pySplitlines
        "add name=\"Internet\" disabled=no\nadd name=\"Internet\" disabled=yes") ∧
    ettpModemRow ⟨"cpe-1", "AA:BB:CC:DD:EE:01", some "10.0.0.2", some "203.0.113.5", none⟩
        (.ok ("add name=\"Internet\" disabled=no\nadd name=\"Internet\" disabled=yes",
              "add max-limit=25M/25M", "")) =
      ["cpe-1", "AA:BB:CC:DD:EE:01", "25 Mbps", "Active"] ∧
    ("add name=\"Internet\" disabled=yes" ∈ pySplitlines
        "add name=\"Internet\" disabled=yes") ∧
    ettpModemRow ⟨"cpe-2", "AA:BB:CC:DD:EE:02", some "10.0.0.3", some "203.0.113.6", none⟩
        (.ok ("add name=\"Internet\" disabled=yes", "", "set speed=100Mbps full-duplex")) =
      ["cpe-2", "AA:BB:CC:DD:EE:02", "100Mbps*", "Active"] ∧
    ("25 Mbps" : String) ≠ "1000 Mbps" ∧ ("100Mbps*" : String) ≠ "1000 Mbps" := by
  exact ⟨by decide, rfl, by decide, rfl, by decide, by decide⟩

/-- C5 amended: if the simple-export disabled check fires (the first
Internet-queue candidate add line carries `disabled=yes`) and the
ethernet export contains no `speed=<n>Mbps` token, then the modem's
reported Speed is `"1000 Mbps"` for *every* content of the verbose queue
export — the verbose export does not influence the result. -/
theorem c5_ettp_disabled_amended (qsimple itext : String) (m : EttpModem) (ip : String)
    (h1 : internet_queue_disabled_from_simple qsimple = true)
    (h2 : findSpeedToken false itext.data = none)
    (hip : m.modemIP = some ip)
    (hact : (m.intIP.isNone && m.pubIP.isNone) = false) :
    ∀ qverb, ettpModemRow m (.ok (qsimple, qverb, itext)) =
      [m.identity, m.mac, "1000 Mbps", "Active"] := by
  intro qverb
  have hspeed : ettpModemSpeed qsimple qverb itext = .ok "1000 Mbps" := by
    simp only [ettpModemSpeed, h1, if_true, h2]
    rfl
  simp [ettpModemRow, hip, hact, hspeed]

/-- Witness for C5 (amended) at a concrete modem whose verbose export
would parse to `25 Mbps` — the disabled check wins. -/
theorem c5_ettp_disabled_amended_witness :
    ettpModemRow ⟨"cpe-3", "AA:BB:CC:DD:EE:03", some "10.0.0.4", none, some "198.51.100.7"⟩
        (.ok ("add name=\"Internet\" disabled=yes", "add max-limit=25M/25M", "")) =
      ["cpe-3", "AA:BB:CC:DD:EE:03", "1000 Mbps", "Active"] :=
  c5_ettp_disabled_amended "add name=\"Internet\" disabled=yes" "" _ "10.0.0.4"
    (by decide) (by decide) rfl (by decide) "add max-limit=25M/25M"

/-- C4: in each scraper, an exception on one sub-entity after discovery
succeeded degrades exactly that row to the family's sentinel value —
`Could Not Connect` (ETTP), `No Data` (CMTS), `Error` (DSL) — does not
propagate out of `get_info`, and leaves every other row exactly what the
other sub-entities' outcomes produce. -/
theorem c4_per_subentity_failure_isolated :
    (∀ (pre post : List (EttpModem × Except String (String × String × String)))
       (m : EttpModem) (ip err : String),
       m.modemIP = some ip → (m.intIP.isNone && m.pubIP.isNone) = false →
       ettpGetInfoRows (pre ++ (m, .error err) :: post) =
         [["Identity", "Mac/Serial", "Speed", "Status"]] ++
           pre.map (fun x => ettpModemRow x.1 x.2) ++
           [[m.identity, m.mac, "No Data", "Could Not Connect"]] ++
           post.map (fun x => ettpModemRow x.1 x.2)) ∧
    (∀ (pre post : List ((String × String) × Except String String))
       (mac identity err : String),
       cmtsGetInfoRows (pre ++ ((mac, identity), .error err) :: post) =
         [["Identity", "Mac/Serial", "Speed", "Status"]] ++
           pre.map (fun x => cmtsModemRow x.1.2 x.1.1 x.2) ++
           [[identity, "No Data", "No Data", "No Data"]] ++
           post.map (fun x => cmtsModemRow x.1.2 x.1.1 x.2)) ∧
    (∀ (slots : List String) (outs : String → Nat → Except Unit (String × String))
       (slot : String) (port : Nat) (err : Unit),
       outs slot port = .error err →
       dslGetInfoRows slots outs =
         [["Identity", "Serial/Mac", "Speed", "Status"]] ++
           slots.flatMap (fun s => (List.range' 1 24).map (fun p => dslPortRow s p (outs s p))) ∧
       dslPortRow slot port (outs slot port) = [dslPortId slot port, "", "", "Error"]) := by
  refine ⟨?_, ?_, ?_⟩
  · intro pre post m ip err hip hact
    have hrow : ettpModemRow m (.error err) = [m.identity, m.mac, "No Data", "Could Not Connect"] := by
      simp [ettpModemRow, hip, hact]
    simp [ettpGetInfoRows, ettpLoop_eq, hrow]
  · intro pre post mac identity err
    simp [cmtsGetInfoRows, cmtsLoop_eq, cmtsModemRow]
  · intro slots outs slot port err hout
    refine ⟨by simp [dslGetInfoRows, dslSlotLoop_eq], ?_⟩
    rw [hout]
    rfl

/-- Witness for C4 at concrete one-failure inputs for all three scraper
families. -/
theorem c4_per_subentity_failure_isolated_witness :
    ettpGetInfoRows
        [(⟨"cpe-a", "AA:01", some "10.0.0.2", some "203.0.113.5", none⟩, .ok ("", "", "")),
         (⟨"cpe-b", "AA:02", some "10.0.0.3", some "203.0.113.6", none⟩, .error "unreachable")] =
      [["Identity", "Mac/Serial", "Speed", "Status"]] ++
        [ettpModemRow ⟨"cpe-a", "AA:01", some "10.0.0.2", some "203.0.113.5", none⟩ (.ok ("", "", ""))] ++
        [["cpe-b", "AA:02", "No Data", "Could Not Connect"]] ++ [] ∧
    cmtsGetInfoRows
        [(("aabb.ccdd.0001", "Unit-A"), .ok "DHCPv4 100Mbps"),
         (("aabb.ccdd.0002", "Unit-B"), .error "timeout")] =
      [["Identity", "Mac/Serial", "Speed", "Status"]] ++
        [cmtsModemRow "Unit-A" "aabb.ccdd.0001" (.ok "DHCPv4 100Mbps")] ++
        [["Unit-B", "No Data", "No Data", "No Data"]] ++ [] ∧
    (dslGetInfoRows ["4"] (fun _ _ => .error ()) =
      [["Identity", "Serial/Mac", "Speed", "Status"]] ++
        (["4"] : List String).flatMap
          (fun s => (List.range' 1 24).map (fun p => dslPortRow s p (.error ()))) ∧
     dslPortRow "4" 7 (.error ()) = [dslPortId "4" 7, "", "", "Error"]) := by
  refine ⟨?_, ?_, ?_⟩
  · exact c4_per_subentity_failure_isolated.1
      [(⟨"cpe-a", "AA:01", some "10.0.0.2", some "203.0.113.5", none⟩, .ok ("", "", ""))] []
      ⟨"cpe-b", "AA:02", some "10.0.0.3", some "203.0.113.6", none⟩ "10.0.0.3" "unreachable"
      rfl (by decide)
  · exact c4_per_subentity_failure_isolated.2.1
      [(("aabb.ccdd.0001", "Unit-A"), .ok "DHCPv4 100Mbps")] []
      "aabb.ccdd.0002" "Unit-B" "timeout"
  · exact c4_per_subentity_failure_isolated.2.2
      ["4"] (fun _ _ => .error ()) "4" 7 () rfl

/-- C7: for two snapshot tables with unique (stripped) keys that are
identical except that the row keyed like `r` has Speed `"50 Mbps"` in the
previous run and `"100 Mbps"` in the current run, `compare_runs` emits
exactly one change record, and its `Change` field is `"Speed Increased"`. -/
theorem c7_compare_one_speed_increase
    (prev curr : List AuditRow) (r : AuditRow)
    (hr : r ∈ prev)
    (hnodup : ((prev.map normKeyRow).map rowKey).Nodup)
    (hsp : r.speed = some "50 Mbps")
    (hcurr : curr = prev.map (fun x =>
      if rowKey (normKeyRow x) = rowKey (normKeyRow r) then setSpeed (some "100 Mbps") x
      else x)) :
    compare_runs prev curr =
      [⟨pyStrip r.property, pyStrip r.identity, "Speed Increased",
        some "50 Mbps", some "100 Mbps", some 50, some 100,
        some r.mac, some r.mac, some r.status, some r.status⟩] := by
  subst hcurr
  set nr := normKeyRow r with hnr
  set m' : AuditRow → AuditRow :=
    (fun x => if rowKey x = rowKey nr then setSpeed (some "100 Mbps") x else x) with hm'
  have hkey : ∀ x, rowKey (m' x) = rowKey x := by
    intro x
    simp only [hm']
    by_cases h : rowKey x = rowKey nr
    · rw [if_pos h, rowKey_setSpeed]
    · rw [if_neg h]
  have hC : (prev.map (fun x =>
      if rowKey (normKeyRow x) = rowKey nr then setSpeed (some "100 Mbps") x else x)).map
        normKeyRow = (prev.map normKeyRow).map m' := by
    rw [List.map_map, List.map_map]
    refine List.map_congr_left (fun x _ => ?_)
    simp only [Function.comp_apply, hm']
    by_cases h : rowKey (normKeyRow x) = rowKey nr
    · rw [if_pos h, if_pos h]
      rfl
    · rw [if_neg h, if_neg h]
  set P := prev.map normKeyRow with hP
  have hfind : ∀ p ∈ P, (P.map m').find? (fun c => rowKey c = rowKey p) = some (m' p) := by
    intro p hp
    rw [List.find?_map]
    have hpred : ((fun c => decide (rowKey c = rowKey p)) ∘ m') =
        (fun c => decide (rowKey c = rowKey p)) := by
      funext c
      simp only [Function.comp_apply, hkey]
    rw [hpred, find?_rowKey_of_nodup P p hnodup hp]
    rfl
  have hpart1 : P.map (fun p =>
      match (P.map m').find? (fun c => rowKey c = rowKey p) with
      | some c => MergedRow.both p c
      | none => MergedRow.leftOnly p) = P.map (fun p => MergedRow.both p (m' p)) := by
    refine List.map_congr_left (fun p hp => ?_)
    simp only [hfind p hp]
  have hpart2 : ((P.map m').filter
      (fun c => !(P.any (fun p => rowKey p = rowKey c)))) = [] := by
    rw [List.filter_eq_nil_iff]
    intro c hc
    obtain ⟨p0, hp0, rfl⟩ := List.mem_map.mp hc
    have hany : P.any (fun p => rowKey p = rowKey (m' p0)) = true :=
      List.any_eq_true.mpr ⟨p0, hp0, by simp [hkey]⟩
    simp [hany]
  have hrP : nr ∈ P := List.mem_map_of_mem normKeyRow hr
  obtain ⟨A, B, hAB⟩ := List.append_of_mem hrP
  have hnodup' := hnodup
  rw [hAB, List.map_append, List.map_cons] at hnodup'
  rcases List.nodup_append.mp hnodup' with ⟨-, hconsB, hdisj⟩
  have hA : ∀ x ∈ A, rowKey x ≠ rowKey nr := by
    intro x hx heq
    exact hdisj (List.mem_map_of_mem rowKey hx) (heq ▸ List.mem_cons_self _ _)
  have hB : ∀ x ∈ B, rowKey x ≠ rowKey nr := by
    intro x hx heq
    exact (List.nodup_cons.mp hconsB).1 (heq ▸ List.mem_map_of_mem rowKey hx)
  have hself : ∀ x, rowKey x ≠ rowKey nr →
      recordOfMerged (MergedRow.both x (m' x)) = none := by
    intro x hx
    rw [hm']
    simp only [if_neg hx]
    exact recordOfMerged_both_self x
  have hmid : recordOfMerged (MergedRow.both nr (m' nr)) =
      some ⟨pyStrip r.property, pyStrip r.identity, "Speed Increased",
        some "50 Mbps", some "100 Mbps", some 50, some 100,
        some r.mac, some r.mac, some r.status, some r.status⟩ := by
    have hpos : m' nr = setSpeed (some "100 Mbps") nr := by
      simp [hm']
    rw [hpos, record_speed_increase nr (by rw [hnr, normKeyRow_speed, hsp])]
    rfl
  have hg : (recordOfMerged ∘ fun p => MergedRow.both p (m' p)) =
      (fun p => recordOfMerged (MergedRow.both p (m' p))) := rfl
  unfold compare_runs
  rw [hC]
  unfold mergeOuter
  rw [hpart1, hpart2]
  simp only [List.map_nil, List.append_nil, List.filterMap_map, hg]
  rw [hAB, List.filterMap_append, List.filterMap_cons, hmid]
  rw [List.filterMap_eq_nil_iff.mpr (fun x hx => hself x (hA x hx)),
    List.filterMap_eq_nil_iff.mpr (fun x hx => hself x (hB x hx))]
  rfl

/-- Witness for C7 at a concrete two-row pair of snapshot tables. -/
theorem c7_compare_one_speed_increase_witness :
    compare_runs
      [⟨"Alpha", "unit-1", "AA:01", some "25 Mbps", "Active"⟩,
       ⟨"Alpha", "unit-2", "AA:02", some "50 Mbps", "Active"⟩]
      ([⟨"Alpha", "unit-1", "AA:01", some "25 Mbps", "Active"⟩,
        ⟨"Alpha", "unit-2", "AA:02", some "50 Mbps", "Active"⟩].map (fun x =>
        if rowKey (normKeyRow x) =
            rowKey (normKeyRow ⟨"Alpha", "unit-2", "AA:02", some "50 Mbps", "Active"⟩) then
          setSpeed (some "100 Mbps") x
        else x)) =
      [⟨pyStrip "Alpha", pyStrip "unit-2", "Speed Increased",
        some "50 Mbps", some "100 Mbps", some 50, some 100,
        some "AA:02", some "AA:02", some "Active", some "Active"⟩] :=
  c7_compare_one_speed_increase _ _ ⟨"Alpha", "unit-2", "AA:02", some "50 Mbps", "Active"⟩
    (by decide) (by decide) rfl rfl

/-- C10: when both Speed strings of a `"both"` merged row parse to
numbers, the speed-change decision is a function of the two numbers
alone; in particular equal numbers record no speed flag even when the
strings differ character-wise. -/
theorem c10_speed_decision_numeric_only (ps cs : String) (a b : ℚ)
    (hp : to_numeric_speed ps = some a) (hc : to_numeric_speed cs = some b) :
    speedChangeFlags (some ps) (some cs) =
      (if b > a then ["Speed Increased"] else if b < a then ["Speed Decreased"] else []) ∧
    (a = b → speedChangeFlags (some ps) (some cs) = []) := by
  have h : speedChangeFlags (some ps) (some cs) =
      (if b > a then ["Speed Increased"] else if b < a then ["Speed Decreased"] else []) := by
    simp [speedChangeFlags, hp, hc]
  refine ⟨h, fun hab => ?_⟩
  rw [h, hab]
  simp [lt_irrefl]

/-- Witness for C10 at `"50"` vs `"50 Mbps"`: both parse to 50, so no
speed flag despite the differing strings. -/
theorem c10_speed_decision_numeric_only_witness :
    (speedChangeFlags (some "50") (some "50 Mbps") =
      (if ((50 : Nat) : ℚ) > ((50 : Nat) : ℚ) then ["Speed Increased"]
       else if ((50 : Nat) : ℚ) < ((50 : Nat) : ℚ) then ["Speed Decreased"] else []) ∧
    (((50 : Nat) : ℚ) = ((50 : Nat) : ℚ) →
      speedChangeFlags (some "50") (some "50 Mbps") = [])) ∧
    ("50" : String) ≠ "50 Mbps" :=
  ⟨c10_speed_decision_numeric_only "50" "50 Mbps" ((50 : Nat) : ℚ) ((50 : Nat) : ℚ)
      (to_numeric_speed_nat "50" ['5', '0'] 50 (by decide) (by decide) (by decide))
      (to_numeric_speed_nat "50 Mbps" ['5', '0'] 50 (by decide) (by decide) (by decide)),
   by decide⟩

/-- C8 counterexample: when the per-modem query *succeeds* but its output
contains no `\d+Mbps` token, the CMTS row is `['', 'Inactive']` in its
Speed/Status fields, not `'No Data'/'No Data'` (the `No Data` row arises
only when the query raises, `cmts.py` line 62). -/
theorem c8_cmts_no_match_counterexample :
    cmtsModemRow "Unit-1" "aabb.ccdd.eeff" (.ok "Offline") =
      ["Unit-1", "aabb.ccdd.eeff", "", "Inactive"] ∧
    ¬ ((cmtsModemRow "Unit-1" "aabb.ccdd.eeff" (.ok "Offline"))[2]? = some "No Data" ∧
       (cmtsModemRow "Unit-1" "aabb.ccdd.eeff" (.ok "Offline"))[3]? = some "No Data") := by
  constructor
  · rfl
  · decide

/-- C8 amended: in the CMTS per-modem loop, absence of an Mbps token in a
*successful* query output yields the row `[identity, mac, '', 'Inactive']`,
while the `[identity, 'No Data', 'No Data', 'No Data']` row is produced
exactly when the per-modem query raises. -/
theorem c8_cmts_no_match_amended (identity mac o e : String)
    (h : findMbpsToken o = none) :
    cmtsModemRow identity mac (.ok o) = [identity, mac, "", "Inactive"] ∧
    cmtsModemRow identity mac (.error e) = [identity, "No Data", "No Data", "No Data"] := by
  constructor
  · simp [cmtsModemRow, h]
  · rfl

/-- Witness for C8 (amended) at a concrete query output with no Mbps
token. -/
theorem c8_cmts_no_match_amended_witness :
    cmtsModemRow "Unit-2" "0011.2233.4455" (.ok "  MAC State: offline") =
      ["Unit-2", "0011.2233.4455", "", "Inactive"] ∧
    cmtsModemRow "Unit-2" "0011.2233.4455" (.error "timed out") =
      ["Unit-2", "No Data", "No Data", "No Data"] :=
  c8_cmts_no_match_amended "Unit-2" "0011.2233.4455" "  MAC State: offline" "timed out"
    (by decide)

/-- C9: for a DSL port whose statistics output reports `DslDownLineRate`
with integer value `v` (bits/sec) on its last such line, the Speed cell
of that port's row is `⌈v / 10^6⌉` formatted as `"<n> Mbps"`. -/
theorem c9_dsl_ceiling_mbps (slot : String) (port : Nat) (statsOut descRaw : String)
    (pre post : List String) (l : String) (v : Nat)
    (hsplit : pySplitlines statsOut = pre ++ l :: post)
    (hd : pyStartsWith (pyStrip l) "DslDownLineRate" = true)
    (hv : pyParseInt (pyStrip (lastDotComponent (pyStrip l))) = some (v : Int))
    (hpost : ∀ l' ∈ post, pyStartsWith (pyStrip l') "DslDownLineRate" = false) :
    (dslPortRow slot port (.ok (statsOut, descRaw)))[2]? =
      some (toString (⌈(v : ℚ) / 1000000⌉ : ℤ) ++ " Mbps") := by
  have hrate : (dslParseStats statsOut).rate = toString (⌈(v : ℚ) / 1000000⌉ : ℤ) ++ " Mbps" := by
    unfold dslParseStats
    rw [hsplit, List.foldl_append, List.foldl_cons, dsl_foldl_rate_invariant post _ hpost,
      dslProcessLine_rate hd hv]
    norm_num
  simp [dslPortRow, hrate]

/-- Witness for C9 at a concrete statistics dump: a 49 999 000 bit/s line
rate is reported as `⌈49999000/10^6⌉ = 50` Mbps. -/
theorem c9_dsl_ceiling_mbps_witness :
    (dslPortRow "9" 3
        (.ok ("AdminStatus.............UP\nDslDownLineRate.........49999000\nserialNumber............ABC123",
              "Description: unit 42")))[2]? =
      some (toString (⌈((49999000 : Nat) : ℚ) / 1000000⌉ : ℤ) ++ " Mbps") ∧
    toString (⌈((49999000 : Nat) : ℚ) / 1000000⌉ : ℤ) ++ " Mbps" = "50 Mbps" := by
  constructor
  · exact c9_dsl_ceiling_mbps "9" 3 _ _
      ["AdminStatus.............UP"] ["serialNumber............ABC123"]
      "DslDownLineRate.........49999000" 49999000
      (by decide) (by decide) (by decide) (by decide)
  · have h : (⌈((49999000 : Nat) : ℚ) / 1000000⌉ : ℤ) = 50 := by
      rw [Int.ceil_eq_iff]
      norm_num
    rw [h]
    rfl

end Netops
